import Mathlib

/-!
Verification of the simulated consensus driver
(`eth/catalyst/simulated_beacon.go` of go-ethereum).

The file shallowly embeds the driver: the withdrawal FIFO queue, the
epoch-based finality computation, the `sealBlock` forkchoice state
machine, and the manual `Fork` / `AdjustTime` entry points.  External
collaborators (execution engine, transaction pool, chain storage) are
modelled as an oracle environment: each engine or pool call made during
one cycle draws its response from a field of the environment, and chain
lookups are functions of their argument.  The driver's own mutable
fields are threaded explicitly, and each operation additionally returns
the trace of engine calls it issued, so that statements about which
calls were (not) made are expressible.
-/

namespace SimBeacon

/-- Content hashes, addresses and payload ids are opaque identifiers in
the driver logic; model them as `Nat`. -/
abbrev Hash := Nat

abbrev Address := Nat

abbrev PayloadID := Nat

/-- `const devEpochLength = 32` (simulated_beacon.go, line 42). -/
def devEpochLength : Nat := 32

/-- A withdrawal record (`types.Withdrawal`): opaque payload data for
the queue and the build attributes. -/
structure Withdrawal where
  index : Nat
  validatorIndex : Nat
  address : Address
  amount : Nat
deriving DecidableEq

/-- The `pending` field of `withdrawalQueue`: insertion order is
inclusion priority. -/
abbrev WithdrawalQueue := List Withdrawal

/-- `withdrawalQueue.add` (lines 56-63): appends to the tail.  The event
feed publication carries no state relevant to the claims. -/
def withdrawalQueueAdd (q : WithdrawalQueue) (w : Withdrawal) : WithdrawalQueue :=
  q ++ [w]

/-- `withdrawalQueue.pop` (lines 66-75):
`count = min(count, len(pending)); popped = pending[0:count];
pending = pending[count:]`.  Returns (popped, remaining). -/
def withdrawalQueuePop (q : WithdrawalQueue) (count : Nat) : List Withdrawal × WithdrawalQueue :=
  let c := min count q.length
  (q.take c, q.drop c)

/-- One operation applied to the withdrawal queue: an `add` of a record
or a `pop` of a requested count. -/
inductive QueueOp where
  | add (w : Withdrawal)
  | pop (count : Nat)

/-- Apply one queue operation to (current queue, log of all popped
elements so far), appending whatever `pop` returns to the log. -/
def stepQueue (st : WithdrawalQueue × List Withdrawal) (op : QueueOp) :
    WithdrawalQueue × List Withdrawal :=
  match op with
  | QueueOp.add w => (withdrawalQueueAdd st.1 w, st.2)
  | QueueOp.pop c =>
      let r := withdrawalQueuePop st.1 c
      (r.2, st.2 ++ r.1)

/-- Run a sequence of queue operations from the empty queue, returning
the final queue and the concatenation of everything popped. -/
def runQueue (ops : List QueueOp) : WithdrawalQueue × List Withdrawal :=
  ops.foldl stepQueue ([], [])

/-- All withdrawals ever added by a sequence of operations, in order. -/
def addedWithdrawals : List QueueOp → List Withdrawal
  | [] => []
  | QueueOp.add w :: rest => w :: addedWithdrawals rest
  | QueueOp.pop _ :: rest => addedWithdrawals rest

/-- The finalized block number computed inside `finalizedBlockHash`
(lines 293-298): `number` itself on an epoch boundary, otherwise
`(number-1)/devEpochLength*devEpochLength`. -/
def finalizedNumber (number : Nat) : Nat :=
  if number % devEpochLength = 0 then number
  else (number - 1) / devEpochLength * devEpochLength

/-- A chain header as consumed by the driver (`types.Header` restricted
to the fields the driver reads; `hashVal` is the value of `Hash()`). -/
structure Header where
  number : Nat
  time : Nat
  hashVal : Hash
deriving DecidableEq

/-- A chain block as consumed by the driver (only number, time and hash
are read). -/
structure Block where
  number : Nat
  time : Nat
  hashVal : Hash
deriving DecidableEq

/-- `engine.PayloadStatusV1.Status` values. -/
inductive PayloadStatus where
  | VALID
  | INVALID
  | SYNCING
  | ACCEPTED
deriving DecidableEq

/-- `engine.PayloadStatusV1` (status plus the optional pointer fields
that participate in the `== STATUS_SYNCING` struct comparison). -/
structure PayloadStatusV1 where
  status : PayloadStatus
  latestValidHash : Option Hash
  validationError : Option String
deriving DecidableEq

/-- `engine.ForkChoiceResponse`.  In Go the `PayloadID` field is a
pointer; `none` is the nil pointer. -/
structure ForkChoiceResponse where
  payloadStatus : PayloadStatusV1
  payloadId : Option PayloadID
deriving DecidableEq

/-- `engine.STATUS_SYNCING`: the literal the first forkchoiceUpdated
response is compared against (line 207).  All pointer fields are nil,
so the Go struct comparison coincides with structural equality here. -/
def STATUS_SYNCING : ForkChoiceResponse :=
  { payloadStatus := { status := PayloadStatus.SYNCING
                       latestValidHash := none
                       validationError := none }
    payloadId := none }

/-- `engine.ForkchoiceStateV1`: the head/safe/finalized hash triple. -/
structure ForkchoiceStateV1 where
  headBlockHash : Hash
  safeBlockHash : Hash
  finalizedBlockHash : Hash
deriving DecidableEq

/-- `engine.PayloadAttributes` as built at lines 197-203. -/
structure PayloadAttributes where
  timestamp : Nat
  suggestedFeeRecipient : Address
  withdrawals : List Withdrawal
  random : Hash
  beaconRoot : Option Hash
deriving DecidableEq

/-- The execution payload fields the driver reads (`payload.Number`,
`payload.BlockHash`, `payload.Timestamp`). -/
structure ExecutionPayload where
  number : Nat
  blockHash : Hash
  timestamp : Nat
deriving DecidableEq

/-- `engine.BlobsBundleV1` restricted to the commitments (byte strings
modelled as lists of bytes). -/
structure BlobsBundle where
  commitments : List (List Nat)
deriving DecidableEq

/-- `engine.ExecutionPayloadEnvelope` as consumed by sealBlock. -/
structure ExecutionPayloadEnvelope where
  executionPayload : ExecutionPayload
  blobsBundle : Option BlobsBundle
  requests : List (List Nat)
deriving DecidableEq

/-- `engine.PayloadVersion`. -/
inductive PayloadVersion where
  | V1
  | V2
  | V3
deriving DecidableEq

/-- Numeric rank of a payload version, for the `version > PayloadV2`
comparison at line 240. -/
def PayloadVersion.toNat : PayloadVersion → Nat
  | PayloadVersion.V1 => 1
  | PayloadVersion.V2 => 2
  | PayloadVersion.V3 => 3

/-- The fork schedule outcomes `config.LatestFork(time)` can produce, as
far as `payloadVersion` distinguishes them; every fork older than Paris
is collapsed into `PreMerge`. -/
inductive ForkName where
  | Prague
  | Cancun
  | Shanghai
  | Paris
  | PreMerge
deriving DecidableEq

/-- The chain configuration as consumed by the driver: a fork schedule. -/
structure ChainConfig where
  latestFork : Nat → ForkName

/-- `payloadVersion` (lines 101-109).  `none` models the Go `panic`
raised on a pre-merge fork ("simulated beacon needs to be started
post-merge"). -/
def payloadVersion (config : ChainConfig) (time : Nat) : Option PayloadVersion :=
  match config.latestFork time with
  | ForkName.Prague => some PayloadVersion.V3
  | ForkName.Cancun => some PayloadVersion.V3
  | ForkName.Paris => some PayloadVersion.V2
  | ForkName.Shanghai => some PayloadVersion.V2
  | ForkName.PreMerge => none

/-- Oracle environment standing for the external collaborators of one
driver operation: the execution engine, the transaction pool and chain
storage.  Each engine/pool call made during a single cycle draws its
response from one field; chain lookups are functions of the queried
number or hash. -/
structure EngineEnv where
  currentBlock : Header
  getBlockByNumber : Nat → Option Block
  getBlockByHash : Hash → Option Block
  txPoolSyncResult : Except String Unit
  pendingCount : Nat
  fcuAttrsResult : Except String ForkChoiceResponse
  getPayloadResult : Except String ExecutionPayloadEnvelope
  newPayloadResult : Except String PayloadStatusV1
  fcuCanonResult : Except String ForkChoiceResponse
  setCanonicalResult : Except String Hash
  calcBlobHashV1 : List Nat → Hash

/-- The driver's mutable fields relevant to sealing: `curForkchoiceState`,
`lastBlockTime` and `feeRecipient` of `SimulatedBeacon`. -/
structure DriverState where
  curForkchoiceState : ForkchoiceStateV1
  lastBlockTime : Nat
  feeRecipient : Address
deriving DecidableEq

/-- `finalizedBlockHash` (lines 292-304): resolve the epoch-aligned
finalized number to a hash by chain lookup, `none` when no block exists
at that height. -/
def finalizedBlockHash (eng : EngineEnv) (number : Nat) : Option Hash :=
  match eng.getBlockByNumber (finalizedNumber number) with
  | some finalizedBlock => some finalizedBlock.hashVal
  | none => none

/-- `setCurrentState` (lines 307-313): head and safe are set to the same
hash. -/
def setCurrentState (headHash finalizedHash : Hash) : ForkchoiceStateV1 :=
  { headBlockHash := headHash
    safeBlockHash := headHash
    finalizedBlockHash := finalizedHash }

/-- The ForkchoiceState built from the chain head in `NewSimulatedBeacon`
(lines 113-118). -/
def initialForkchoiceState (block : Header) : ForkchoiceStateV1 :=
  { headBlockHash := block.hashVal
    safeBlockHash := block.hashVal
    finalizedBlockHash := block.hashVal }

/-- One engine call issued by `sealBlock`, with the arguments that were
passed, in issue order. -/
inductive EngineCall where
  | forkchoiceUpdatedWithAttrs (state : ForkchoiceStateV1) (attrs : PayloadAttributes)
  | getPayloadCall (id : PayloadID)
  | newPayloadCall (payload : ExecutionPayload) (blobHashes : List Hash)
      (beaconRoot : Option Hash) (requests : List (List Nat))
  | forkchoiceUpdatedCanon (state : ForkchoiceStateV1)
deriving DecidableEq

/-- How a `sealBlock` cycle ends: normal return `ok`, error return
`err`, or a Go runtime panic (`panic` marks the nil-pointer
dereferences and the pre-merge `payloadVersion` panic). -/
inductive SealOutcome where
  | ok
  | err (msg : String)
  | panic
deriving DecidableEq

/-- Result of a `sealBlock` cycle: the outcome, the driver state after
the call, and the trace of engine calls issued. -/
structure SealResult where
  outcome : SealOutcome
  state : DriverState
  calls : List EngineCall
deriving DecidableEq

/-- The resync guard of `sealBlock` (lines 177-181): when the cached
head differs from the live chain head, recompute the forkchoice state
from the live head.  `none` models the Go nil-pointer dereference of
`*finalizedHash` (the guard performs no nil check before dereferencing
the result of `finalizedBlockHash`). -/
def resyncGuard (eng : EngineEnv) (s : DriverState) : Option DriverState :=
  if s.curForkchoiceState.headBlockHash ≠ eng.currentBlock.hashVal then
    match finalizedBlockHash eng eng.currentBlock.number with
    | none => none
    | some finalizedHash =>
        some { s with curForkchoiceState :=
                 setCurrentState eng.currentBlock.hashVal finalizedHash }
  else some s

/-- The commitment loop of lines 242-252: reject a commitment whose
byte length differs from `len(kzg4844.Commitment)` = 48, otherwise
derive its blob hash with the hash-derivation primitive, preserving
order. -/
def computeBlobHashes (deriveHash : List Nat → Hash) : List (List Nat) → Except String (List Hash)
  | [] => Except.ok []
  | commit :: rest =>
      if commit.length ≠ 48 then Except.error "invalid commitment length"
      else
        match computeBlobHashes deriveHash rest with
        | Except.error e => Except.error e
        | Except.ok hs => Except.ok (deriveHash commit :: hs)

/-- The `engine.PayloadAttributes` literal built at lines 197-203: the
normalized timestamp, the fee recipient read at entry, the withdrawals
passed in, the freshly drawn random seed, and a zeroed beacon root. -/
def buildAttrs (random : Hash) (withdrawals : List Withdrawal)
    (feeRecipient : Address) (ts : Nat) : PayloadAttributes :=
  { timestamp := ts
    suggestedFeeRecipient := feeRecipient
    withdrawals := withdrawals
    random := random
    beaconRoot := some 0 }

/-- Lines 183-270 of `sealBlock`: everything after the resync guard.
The fee recipient was read (lines 173-175) and the timestamp normalized
(lines 170-172) before the guard runs, so both are passed in
explicitly.  `ts` is the normalized build timestamp. -/
def sealBlockBody (cfg : ChainConfig) (eng : EngineEnv) (random : Hash)
    (withdrawals : List Withdrawal) (feeRecipient : Address) (ts : Nat)
    (s1 : DriverState) : SealResult :=
  match eng.txPoolSyncResult with
  | Except.error e =>
      { outcome := SealOutcome.err ("failed to sync txpool: " ++ e)
        state := s1, calls := [] }
  | Except.ok _ =>
    match payloadVersion cfg ts with
    | none => { outcome := SealOutcome.panic, state := s1, calls := [] }
    | some version =>
      let attrs := buildAttrs random withdrawals feeRecipient ts
      let call1 := EngineCall.forkchoiceUpdatedWithAttrs s1.curForkchoiceState attrs
      match eng.fcuAttrsResult with
      | Except.error e => { outcome := SealOutcome.err e, state := s1, calls := [call1] }
      | Except.ok fcResponse =>
        if fcResponse = STATUS_SYNCING then
          { outcome := SealOutcome.err "chain rewind prevented invocation of payload creation"
            state := s1, calls := [call1] }
        else if fcResponse.payloadStatus.status = PayloadStatus.VALID ∧
            fcResponse.payloadId = none then
          -- payload already known: skip the rest of the process (lines 211-215)
          { outcome := SealOutcome.ok, state := s1, calls := [call1] }
        else
          match fcResponse.payloadId with
          | none =>
              -- `*fcResponse.PayloadID` dereferences a nil pointer (line 217)
              { outcome := SealOutcome.panic, state := s1, calls := [call1] }
          | some pid =>
            let call2 := EngineCall.getPayloadCall pid
            match eng.getPayloadResult with
            | Except.error e =>
                { outcome := SealOutcome.err e, state := s1, calls := [call1, call2] }
            | Except.ok envelope =>
              let payload := envelope.executionPayload
              let fhStep : Except String Hash :=
                if payload.number % devEpochLength = 0 then Except.ok payload.blockHash
                else
                  match finalizedBlockHash eng payload.number with
                  | none =>
                      Except.error "chain rewind interrupted calculation of finalized block hash"
                  | some fh => Except.ok fh
              match fhStep with
              | Except.error e =>
                  { outcome := SealOutcome.err e, state := s1, calls := [call1, call2] }
              | Except.ok finalizedHash =>
                let postStep : Except String (List Hash × Option Hash × List (List Nat)) :=
                  if PayloadVersion.V2.toNat < version.toNat then
                    match computeBlobHashes eng.calcBlobHashV1
                        (match envelope.blobsBundle with
                         | none => []
                         | some b => b.commitments) with
                    | Except.error e => Except.error e
                    | Except.ok hs => Except.ok (hs, some 0, envelope.requests)
                  else Except.ok ([], none, [])
                match postStep with
                | Except.error e =>
                    { outcome := SealOutcome.err e, state := s1, calls := [call1, call2] }
                | Except.ok post =>
                  let call3 := EngineCall.newPayloadCall payload post.1 post.2.1 post.2.2
                  match eng.newPayloadResult with
                  | Except.error e =>
                      { outcome := SealOutcome.err e, state := s1
                        calls := [call1, call2, call3] }
                  | Except.ok _ =>
                    -- commit the new forkchoice state (line 263) ...
                    let s2 := { s1 with curForkchoiceState :=
                                  setCurrentState payload.blockHash finalizedHash }
                    let call4 := EngineCall.forkchoiceUpdatedCanon s2.curForkchoiceState
                    -- ... and only then mark the block canonical (line 266)
                    match eng.fcuCanonResult with
                    | Except.error e =>
                        { outcome := SealOutcome.err e, state := s2
                          calls := [call1, call2, call3, call4] }
                    | Except.ok _ =>
                        { outcome := SealOutcome.ok
                          state := { s2 with lastBlockTime := payload.timestamp }
                          calls := [call1, call2, call3, call4] }

/-- `sealBlock` (lines 169-271) over the oracle environment.  The Go
method mutates the receiver's fields; here the updated driver state is
returned together with the outcome and the engine-call trace.  The
random seed drawn at line 196 is an input. -/
def sealBlock (cfg : ChainConfig) (eng : EngineEnv) (random : Hash)
    (withdrawals : List Withdrawal) (timestamp : Nat) (s : DriverState) : SealResult :=
  let ts := if timestamp ≤ s.lastBlockTime then s.lastBlockTime + 1 else timestamp
  let feeRecipient := s.feeRecipient
  match resyncGuard eng s with
  | none => { outcome := SealOutcome.panic, state := s, calls := [] }
  | some s1 => sealBlockBody cfg eng random withdrawals feeRecipient ts s1

/-- One chain mutation issued by `Fork`. -/
inductive ForkCall where
  | setCanonicalCall (b : Block)
deriving DecidableEq

/-- Result of a `Fork` call: the returned error (if any) and the chain
mutations issued. -/
structure ForkResult where
  result : Except String Unit
  calls : List ForkCall

/-- `Fork` (lines 330-343).  The initial `TxPool().Sync()` call's
return value is discarded by the source, so it is not modelled. -/
def Fork (eng : EngineEnv) (parentHash : Hash) : ForkResult :=
  if eng.pendingCount ≠ 0 then
    { result := Except.error "pending block dirty", calls := [] }
  else
    match eng.getBlockByHash parentHash with
    | none => { result := Except.error "parent not found", calls := [] }
    | some parent =>
      match eng.setCanonicalResult with
      | Except.error e =>
          { result := Except.error e, calls := [ForkCall.setCanonicalCall parent] }
      | Except.ok _ =>
          { result := Except.ok (), calls := [ForkCall.setCanonicalCall parent] }

/-- Go conversion `uint64(x)` of an `int64`: two's-complement
reinterpretation, i.e. reduction mod 2^64. -/
def goUInt64OfInt64 (x : Int) : Nat := (x % (2 ^ 64 : Int)).toNat

/-- `adjustment / time.Second` on `time.Duration` (an `int64` count of
nanoseconds): Go integer division truncates toward zero. -/
def durationSeconds (adjustment : Int) : Int := Int.tdiv adjustment 1000000000

/-- `AdjustTime` (lines 346-356).  `CurrentBlock` is modelled as always
present (the dev chain always has a head), so the nil-parent branch of
the source cannot arise.  The requested timestamp
`parent.Time + uint64(adjustment/time.Second)` wraps as Go `uint64`
addition does. -/
def AdjustTime (cfg : ChainConfig) (eng : EngineEnv) (random : Hash)
    (q : WithdrawalQueue) (adjustment : Int) (s : DriverState) : SealResult :=
  if eng.pendingCount ≠ 0 then
    { outcome := SealOutcome.err "could not adjust time on non-empty block"
      state := s, calls := [] }
  else
    let parent := eng.currentBlock
    let withdrawals := (withdrawalQueuePop q 10).1
    sealBlock cfg eng random withdrawals
      ((parent.time + goUInt64OfInt64 (durationSeconds adjustment)) % 2 ^ 64) s

/-! ### Concrete states and environments used by witnesses and
counterexamples -/

/-- A concrete chain head at height 5. -/
def headerW : Header := { number := 5, time := 100, hashVal := 77 }

/-- A VALID payload status with nil pointer fields. -/
def statusW : PayloadStatusV1 :=
  { status := PayloadStatus.VALID, latestValidHash := none, validationError := none }

/-- A forkchoice response carrying a fresh payload id. -/
def respW : ForkChoiceResponse := { payloadStatus := statusW, payloadId := some 9 }

/-- A forkchoice response reporting the payload as already known:
VALID with no new payload id. -/
def respNoop : ForkChoiceResponse := { payloadStatus := statusW, payloadId := none }

/-- A forkchoice response with a non-VALID status and no payload id. -/
def respNilPid : ForkChoiceResponse :=
  { payloadStatus :=
      { status := PayloadStatus.INVALID, latestValidHash := none, validationError := none }
    payloadId := none }

/-- The payload the engine builds on top of `headerW`. -/
def payloadW : ExecutionPayload := { number := 6, blockHash := 88, timestamp := 101 }

/-- The envelope wrapping `payloadW` (no blobs, no requests). -/
def envelopeW : ExecutionPayloadEnvelope :=
  { executionPayload := payloadW, blobsBundle := none, requests := [] }

/-- A post-merge, pre-Cancun chain configuration. -/
def cfgW : ChainConfig := { latestFork := fun _ => ForkName.Shanghai }

/-- A fully cooperative engine environment: head `headerW`, genesis
block available for finality lookups, and every call succeeding. -/
def engW : EngineEnv :=
  { currentBlock := headerW
    getBlockByNumber := fun n =>
      if n = 0 then some { number := 0, time := 0, hashVal := 55 } else none
    getBlockByHash := fun h =>
      if h = 77 then some { number := 5, time := 100, hashVal := 77 } else none
    txPoolSyncResult := Except.ok ()
    pendingCount := 0
    fcuAttrsResult := Except.ok respW
    getPayloadResult := Except.ok envelopeW
    newPayloadResult := Except.ok statusW
    fcuCanonResult := Except.ok respW
    setCanonicalResult := Except.ok 77
    calcBlobHashV1 := fun _ => 0 }

/-- The driver state synchronized with `headerW`. -/
def stW : DriverState :=
  { curForkchoiceState := initialForkchoiceState headerW
    lastBlockTime := 100
    feeRecipient := 3 }

/-- `engW` with a failing canonicalizing forkchoiceUpdated. -/
def engCanonErr : EngineEnv := { engW with fcuCanonResult := Except.error "canon failed" }

/-- `engW` with a failing transaction-pool sync. -/
def engSyncErr : EngineEnv := { engW with txPoolSyncResult := Except.error "pool down" }

/-- `engW` after an external rewind: the live head differs from the
cached head and no block exists at any height any more. -/
def engRewind : EngineEnv :=
  { engW with
      currentBlock := { number := 6, time := 100, hashVal := 99 }
      getBlockByNumber := fun _ => none }

/-- `engW` whose first forkchoiceUpdated reports INVALID with no
payload id. -/
def engNilPid : EngineEnv := { engW with fcuAttrsResult := Except.ok respNilPid }

/-- `engW` where the chain lookup finds no block at any height. -/
def engFinNone : EngineEnv := { engW with getBlockByNumber := fun _ => none }

/-- `engW` whose first forkchoiceUpdated reports the no-op response. -/
def engNoop : EngineEnv := { engW with fcuAttrsResult := Except.ok respNoop }

/-! ### Helper lemmas -/

/-- Closed form of the finalized-number computation: the greatest
multiple of the epoch length not exceeding the input. -/
lemma finalizedNumber_eq_mul_div (n : Nat) :
    finalizedNumber n = devEpochLength * (n / devEpochLength) := by
  unfold finalizedNumber devEpochLength
  split
  · omega
  · omega

/-- Invariant of the queue fold: popped log plus live queue equals the
initial log and queue plus everything added by the operations. -/
lemma runQueue_foldl (ops : List QueueOp) :
    ∀ st : WithdrawalQueue × List Withdrawal,
      (ops.foldl stepQueue st).2 ++ (ops.foldl stepQueue st).1 =
        st.2 ++ (st.1 ++ addedWithdrawals ops) := by
  induction ops with
  | nil => intro st; simp [addedWithdrawals]
  | cons op rest ih =>
    intro st
    cases op with
    | add w =>
      simp only [List.foldl_cons, stepQueue, withdrawalQueueAdd, addedWithdrawals]
      rw [ih]
      simp
    | pop c =>
      simp only [List.foldl_cons, stepQueue, withdrawalQueuePop, addedWithdrawals]
      rw [ih]
      have h := List.take_append_drop (min c st.1.length) st.1
      simp only [List.append_assoc]
      rw [← List.append_assoc (List.take (min c st.1.length) st.1), h]

/-- When the cached head matches the live head, the resync guard leaves
the driver state untouched. -/
lemma resyncGuard_eq_of_head (eng : EngineEnv) (s : DriverState)
    (h : s.curForkchoiceState.headBlockHash = eng.currentBlock.hashVal) :
    resyncGuard eng s = some s := by
  unfold resyncGuard
  simp [h]

/-- Whenever the resync guard does not panic, the state it hands on is
either the input state or the input with the forkchoice state recomputed
from the live head; the other driver fields are untouched. -/
lemma resyncGuard_spec (eng : EngineEnv) (s s1 : DriverState)
    (h : resyncGuard eng s = some s1) :
    s1 = s ∨
    ∃ fh, s1 = { s with curForkchoiceState := setCurrentState eng.currentBlock.hashVal fh } := by
  unfold resyncGuard at h
  split at h
  · cases hfb : finalizedBlockHash eng eng.currentBlock.number with
    | none => rw [hfb] at h; exact absurd h (by simp)
    | some fh =>
        rw [hfb] at h
        right
        exact ⟨fh, by injection h with h2; exact h2.symm⟩
  · left
    injection h with h2
    exact h2.symm

/-- The resync guard does not panic when either no resync is needed or
the finalized ancestor of the live head exists; the state it hands on
agrees with the input on `lastBlockTime` and `feeRecipient`. -/
lemma resyncGuard_exists (eng : EngineEnv) (s : DriverState)
    (hguard : s.curForkchoiceState.headBlockHash = eng.currentBlock.hashVal ∨
      (finalizedBlockHash eng eng.currentBlock.number).isSome) :
    ∃ s1, resyncGuard eng s = some s1 ∧ s1.lastBlockTime = s.lastBlockTime ∧
      s1.feeRecipient = s.feeRecipient := by
  by_cases hh : s.curForkchoiceState.headBlockHash = eng.currentBlock.hashVal
  · exact ⟨s, resyncGuard_eq_of_head eng s hh, rfl, rfl⟩
  · rcases hguard with h | h
    · exact absurd h hh
    · rcases Option.isSome_iff_exists.mp h with ⟨fh, hfh⟩
      refine ⟨{ s with curForkchoiceState :=
          setCurrentState eng.currentBlock.hashVal fh }, ?_, rfl, rfl⟩
      unfold resyncGuard
      simp [hh, hfh]

/-- `sealBlock` unfolds to `sealBlockBody` on the state handed on by the
resync guard, with the timestamp normalized against `lastBlockTime`. -/
lemma sealBlock_eq_body (cfg : ChainConfig) (eng : EngineEnv) (rnd : Hash)
    (wds : List Withdrawal) (ts : Nat) (s s1 : DriverState)
    (h : resyncGuard eng s = some s1) :
    sealBlock cfg eng rnd wds ts s =
      sealBlockBody cfg eng rnd wds s.feeRecipient
        (if ts ≤ s.lastBlockTime then s.lastBlockTime + 1 else ts) s1 := by
  unfold sealBlock
  rw [h]

/-- `sealBlock` panics (and leaves the state alone, issuing no engine
calls) exactly when the resync guard panics. -/
lemma sealBlock_guard_panic (cfg : ChainConfig) (eng : EngineEnv) (rnd : Hash)
    (wds : List Withdrawal) (ts : Nat) (s : DriverState)
    (h : resyncGuard eng s = none) :
    sealBlock cfg eng rnd wds ts s =
      { outcome := SealOutcome.panic, state := s, calls := [] } := by
  unfold sealBlock
  rw [h]

/-- Exhaustive shape of a `sealBlockBody` run: either the cycle ends
before any state commit (state unchanged, no canonicalize call, and a
success here is the no-op path with just the one forkchoiceUpdated), or
the built payload was committed (forkchoice state set from the payload
hash, a canonicalize call was issued, and `lastBlockTime` advanced to
the payload timestamp exactly on success). -/
lemma sealBlockBody_shape (cfg : ChainConfig) (eng : EngineEnv) (rnd : Hash)
    (wds : List Withdrawal) (fr : Address) (ts : Nat) (s1 : DriverState) :
    ((sealBlockBody cfg eng rnd wds fr ts s1).state = s1 ∧
      ((sealBlockBody cfg eng rnd wds fr ts s1).calls = [] ∨
        (sealBlockBody cfg eng rnd wds fr ts s1).calls.head? =
          some (EngineCall.forkchoiceUpdatedWithAttrs s1.curForkchoiceState
            (buildAttrs rnd wds fr ts))) ∧
      (∀ st, EngineCall.forkchoiceUpdatedCanon st ∉
        (sealBlockBody cfg eng rnd wds fr ts s1).calls) ∧
      ((sealBlockBody cfg eng rnd wds fr ts s1).outcome = SealOutcome.ok →
        (sealBlockBody cfg eng rnd wds fr ts s1).calls =
          [EngineCall.forkchoiceUpdatedWithAttrs s1.curForkchoiceState
            (buildAttrs rnd wds fr ts)])) ∨
    (∃ env fh, eng.getPayloadResult = Except.ok env ∧
      (sealBlockBody cfg eng rnd wds fr ts s1).state.curForkchoiceState =
        setCurrentState env.executionPayload.blockHash fh ∧
      (sealBlockBody cfg eng rnd wds fr ts s1).calls.head? =
        some (EngineCall.forkchoiceUpdatedWithAttrs s1.curForkchoiceState
          (buildAttrs rnd wds fr ts)) ∧
      (∃ st, EngineCall.forkchoiceUpdatedCanon st ∈
        (sealBlockBody cfg eng rnd wds fr ts s1).calls) ∧
      ((sealBlockBody cfg eng rnd wds fr ts s1).outcome = SealOutcome.ok →
        (sealBlockBody cfg eng rnd wds fr ts s1).state.lastBlockTime =
          env.executionPayload.timestamp) ∧
      ((sealBlockBody cfg eng rnd wds fr ts s1).outcome ≠ SealOutcome.ok →
        (sealBlockBody cfg eng rnd wds fr ts s1).state.lastBlockTime =
          s1.lastBlockTime)) := by
  rcases h1 : eng.txPoolSyncResult with e1 | u
  · left
    simp [sealBlockBody, h1]
  rcases h2 : payloadVersion cfg ts with _ | v
  · left
    simp [sealBlockBody, h1, h2]
  rcases h3 : eng.fcuAttrsResult with e3 | resp
  · left
    simp [sealBlockBody, h1, h2, h3]
  by_cases hS : resp = STATUS_SYNCING
  · left
    simp [sealBlockBody, h1, h2, h3, hS]
  rcases h4 : resp.payloadId with _ | pid
  · by_cases hv : resp.payloadStatus.status = PayloadStatus.VALID
    · left
      simp [sealBlockBody, h1, h2, h3, hS, h4, hv]
    · left
      simp [sealBlockBody, h1, h2, h3, hS, h4, hv]
  rcases h5 : eng.getPayloadResult with e5 | env
  · left
    simp [sealBlockBody, h1, h2, h3, hS, h4, h5]
  rcases h6 : (if env.executionPayload.number % devEpochLength = 0
      then Except.ok env.executionPayload.blockHash
      else match finalizedBlockHash eng env.executionPayload.number with
        | none =>
            Except.error "chain rewind interrupted calculation of finalized block hash"
        | some fh => Except.ok fh : Except String Hash) with e6 | fh
  · left
    simp [sealBlockBody, h1, h2, h3, hS, h4, h5, h6]
  rcases h7 : (if PayloadVersion.V2.toNat < v.toNat then
      match computeBlobHashes eng.calcBlobHashV1
          (match env.blobsBundle with
           | none => []
           | some b => b.commitments) with
      | Except.error e => Except.error e
      | Except.ok hs => Except.ok (hs, some 0, env.requests)
    else Except.ok ([], none, []) :
      Except String (List Hash × Option Hash × List (List Nat))) with e7 | post
  · left
    simp [sealBlockBody, h1, h2, h3, hS, h4, h5, h6, h7]
  rcases h8 : eng.newPayloadResult with e8 | st8
  · left
    simp [sealBlockBody, h1, h2, h3, hS, h4, h5, h6, h7, h8]
  rcases h9 : eng.fcuCanonResult with e9 | ok9
  · right
    refine ⟨env, fh, rfl, ?_, ?_, ?_, ?_, ?_⟩ <;>
      simp [sealBlockBody, h1, h2, h3, hS, h4, h5, h6, h7, h8, h9]
  · right
    refine ⟨env, fh, rfl, ?_, ?_, ?_, ?_, ?_⟩ <;>
      simp [sealBlockBody, h1, h2, h3, hS, h4, h5, h6, h7, h8, h9]

/-- The no-op path of `sealBlockBody` (lines 211-215): a VALID response
with no payload id ends the cycle successfully after the single
forkchoiceUpdated call. -/
lemma sealBlockBody_noop (cfg : ChainConfig) (eng : EngineEnv) (rnd : Hash)
    (wds : List Withdrawal) (fr : Address) (ts : Nat) (s1 : DriverState)
    (resp : ForkChoiceResponse) (v : PayloadVersion)
    (hsync : eng.txPoolSyncResult = Except.ok ())
    (hver : payloadVersion cfg ts = some v)
    (hfcu : eng.fcuAttrsResult = Except.ok resp)
    (hst : resp.payloadStatus.status = PayloadStatus.VALID)
    (hpid : resp.payloadId = none) :
    sealBlockBody cfg eng rnd wds fr ts s1 =
      { outcome := SealOutcome.ok, state := s1
        calls := [EngineCall.forkchoiceUpdatedWithAttrs s1.curForkchoiceState
          (buildAttrs rnd wds fr ts)] } := by
  have hns : ¬(resp = STATUS_SYNCING) := by
    intro h
    rw [h] at hst
    exact absurd hst (by decide)
  simp [sealBlockBody, hsync, hver, hfcu, hns, hst, hpid]

/-- The nil-payload-id dereference of `sealBlockBody` (line 217): a
non-SYNCING, non-VALID response with no payload id makes the Go code
dereference a nil pointer. -/
lemma sealBlockBody_nil_pid (cfg : ChainConfig) (eng : EngineEnv) (rnd : Hash)
    (wds : List Withdrawal) (fr : Address) (ts : Nat) (s1 : DriverState)
    (resp : ForkChoiceResponse) (v : PayloadVersion)
    (hsync : eng.txPoolSyncResult = Except.ok ())
    (hver : payloadVersion cfg ts = some v)
    (hfcu : eng.fcuAttrsResult = Except.ok resp)
    (hns : resp ≠ STATUS_SYNCING)
    (hnv : resp.payloadStatus.status ≠ PayloadStatus.VALID)
    (hpid : resp.payloadId = none) :
    sealBlockBody cfg eng rnd wds fr ts s1 =
      { outcome := SealOutcome.panic, state := s1
        calls := [EngineCall.forkchoiceUpdatedWithAttrs s1.curForkchoiceState
          (buildAttrs rnd wds fr ts)] } := by
  simp [sealBlockBody, hsync, hver, hfcu, hns, hnv, hpid]

/-- The finality-indeterminate path of `sealBlockBody` (lines 227-231):
if the built payload is off an epoch boundary and the finalized
ancestor cannot be resolved, the cycle aborts with an explicit error
right after getPayload. -/
lemma sealBlockBody_finality_indeterminate (cfg : ChainConfig) (eng : EngineEnv)
    (rnd : Hash) (wds : List Withdrawal) (fr : Address) (ts : Nat) (s1 : DriverState)
    (resp : ForkChoiceResponse) (v : PayloadVersion) (pid : PayloadID)
    (env : ExecutionPayloadEnvelope)
    (hsync : eng.txPoolSyncResult = Except.ok ())
    (hver : payloadVersion cfg ts = some v)
    (hfcu : eng.fcuAttrsResult = Except.ok resp)
    (hns : resp ≠ STATUS_SYNCING)
    (hpid : resp.payloadId = some pid)
    (hgp : eng.getPayloadResult = Except.ok env)
    (hmod : env.executionPayload.number % devEpochLength ≠ 0)
    (hfin : finalizedBlockHash eng env.executionPayload.number = none) :
    sealBlockBody cfg eng rnd wds fr ts s1 =
      { outcome :=
          SealOutcome.err "chain rewind interrupted calculation of finalized block hash"
        state := s1
        calls := [EngineCall.forkchoiceUpdatedWithAttrs s1.curForkchoiceState
            (buildAttrs rnd wds fr ts),
          EngineCall.getPayloadCall pid] } := by
  simp [sealBlockBody, hsync, hver, hfcu, hns, hpid, hgp, hmod, hfin]

/-! ### Claim theorems: finality computation and withdrawal queue -/

/-- C5: for every block number, the finalized number computed by
`finalizedBlockHash` equals the number itself when `number mod 32 = 0`
and `(number-1)/32*32` otherwise; `finalizedBlockHash` resolves exactly
that number through the chain lookup; and the computed number is the
greatest multiple of the epoch length 32 that is at most the number. -/
theorem finalizedNumber_spec :
    (∀ n : Nat, finalizedNumber n = if n % 32 = 0 then n else (n - 1) / 32 * 32) ∧
    (∀ (eng : EngineEnv) (n : Nat),
        finalizedBlockHash eng n =
          Option.map (fun b => b.hashVal) (eng.getBlockByNumber (finalizedNumber n))) ∧
    (∀ n : Nat, finalizedNumber n ≤ n ∧ 32 ∣ finalizedNumber n ∧
        ∀ m : Nat, 32 ∣ m → m ≤ n → m ≤ finalizedNumber n) := by
  refine ⟨fun n => rfl, fun eng n => ?_, fun n => ?_⟩
  · unfold finalizedBlockHash
    cases eng.getBlockByNumber (finalizedNumber n) <;> rfl
  · rw [finalizedNumber_eq_mul_div]
    unfold devEpochLength
    refine ⟨by omega, ⟨n / 32, rfl⟩, ?_⟩
    rintro m ⟨j, rfl⟩ hle
    have h32 : 32 * (n / 32) + n % 32 = n := Nat.div_add_mod n 32
    have hlt : n % 32 < 32 := Nat.mod_lt _ (by omega)
    omega

/-- C5 witness: the greatest-multiple property evaluated at number 45
and candidate multiple 32. -/
theorem finalizedNumber_spec_w :
    (32 : Nat) ∣ 32 ∧ 32 ≤ 45 ∧ 32 ≤ finalizedNumber 45 :=
  ⟨by decide, by decide, (finalizedNumber_spec.2.2 45).2.2 32 (by decide) (by decide)⟩

/-- C6: the finalized-number computation f of `finalizedBlockHash`
satisfies, for every block number k: f k ≤ k, f k is a multiple of the
epoch length, and f (f k) = f k. -/
theorem finalizedNumber_algebra :
    ∀ k : Nat, finalizedNumber k ≤ k ∧ devEpochLength ∣ finalizedNumber k ∧
      finalizedNumber (finalizedNumber k) = finalizedNumber k := by
  intro k
  have h1 := finalizedNumber_eq_mul_div k
  have h2 := finalizedNumber_eq_mul_div (finalizedNumber k)
  unfold devEpochLength at *
  refine ⟨by omega, ?_, by omega⟩
  exact h1 ▸ ⟨k / 32, rfl⟩

/-- C7: `pop` returns exactly the first `min n (queue length)` elements
in arrival (FIFO) order, removes exactly that prefix (so popped and
remaining concatenate back to the queue), never returns more than `n`
nor more than are queued; and over any sequence of queue operations the
concatenation of everything popped with the remaining queue equals the
sequence of all withdrawals ever added. -/
theorem withdrawalQueue_fifo :
    (∀ (q : WithdrawalQueue) (n : Nat),
        (withdrawalQueuePop q n).1 = q.take (min n q.length) ∧
        (withdrawalQueuePop q n).2 = q.drop (min n q.length) ∧
        (withdrawalQueuePop q n).1.length ≤ n ∧
        (withdrawalQueuePop q n).1.length ≤ q.length ∧
        (withdrawalQueuePop q n).1 ++ (withdrawalQueuePop q n).2 = q) ∧
    (∀ ops : List QueueOp,
        (runQueue ops).2 ++ (runQueue ops).1 = addedWithdrawals ops) := by
  constructor
  · intro q n
    refine ⟨rfl, rfl, ?_, ?_, ?_⟩
    · simp only [withdrawalQueuePop, List.length_take]
      omega
    · simp only [withdrawalQueuePop, List.length_take]
      omega
    · simp [withdrawalQueuePop, List.take_append_drop]
  · intro ops
    simpa [runQueue, addedWithdrawals] using runQueue_foldl ops ([], [])

/-! ### Claim theorems: the sealBlock state machine -/

/-- C1 (counterexample): a `sealBlock` call whose canonicalizing
forkchoiceUpdated fails returns an error, yet the driver's
ForkchoiceState after the call differs from the one before it — the
state was committed after validation but before canonicalization. -/
theorem sealBlock_canon_error_mutates_state :
    (sealBlock cfgW engCanonErr 0 [] 100 stW).outcome = SealOutcome.err "canon failed" ∧
    (sealBlock cfgW engCanonErr 0 [] 100 stW).state.curForkchoiceState ≠
      stW.curForkchoiceState := by
  exact ⟨by decide, by decide⟩

/-- C1 (amended): a `sealBlock` call that returns an error leaves the
ForkchoiceState unchanged provided the cached head matched the live
head at entry (no resync fired) and the failing step was not the final
canonicalizing forkchoiceUpdated; the commit happens after newPayload
validation but before canonicalization, so a canonicalize failure (and
a resync at entry) can leave a changed state behind an error return. -/
theorem sealBlock_error_preserves_state_before_canon
    (cfg : ChainConfig) (eng : EngineEnv) (rnd : Hash) (wds : List Withdrawal)
    (ts : Nat) (s : DriverState) (e : String)
    (hhead : s.curForkchoiceState.headBlockHash = eng.currentBlock.hashVal)
    (_herr : (sealBlock cfg eng rnd wds ts s).outcome = SealOutcome.err e)
    (hnocanon : ∀ st, EngineCall.forkchoiceUpdatedCanon st ∉
      (sealBlock cfg eng rnd wds ts s).calls) :
    (sealBlock cfg eng rnd wds ts s).state = s := by
  have hG := resyncGuard_eq_of_head eng s hhead
  rw [sealBlock_eq_body cfg eng rnd wds ts s s hG] at hnocanon ⊢
  rcases sealBlockBody_shape cfg eng rnd wds s.feeRecipient
      (if ts ≤ s.lastBlockTime then s.lastBlockTime + 1 else ts) s with
    ⟨hst, -, -, -⟩ | ⟨env, fh, -, -, -, ⟨st', hmem⟩, -, -⟩
  · exact hst
  · exact absurd hmem (hnocanon st')

/-- C1 witness: a concrete erroring run (txpool sync failure, no
resync, no canonicalize call) whose state is unchanged. -/
theorem sealBlock_error_preserves_state_before_canon_w :
    (sealBlock cfgW engSyncErr 0 [] 100 stW).state = stW := by
  refine sealBlock_error_preserves_state_before_canon cfgW engSyncErr 0 [] 100 stW
    "failed to sync txpool: pool down" (by decide) (by decide) ?_
  intro st h
  rw [show (sealBlock cfgW engSyncErr 0 [] 100 stW).calls = [] from by decide] at h
  simp at h

/-- C2 (counterexample): when the resync guard fires and
`finalizedBlockHash` is indeterminate, `sealBlock` does not surface an
error: it dereferences the nil result and crashes (Go panic). -/
theorem sealBlock_resync_indeterminate_panics :
    (sealBlock cfgW engRewind 0 [] 100 stW).outcome = SealOutcome.panic := by
  decide

/-- C2 (amended): when `finalizedBlockHash` is indeterminate the two
callers inside `sealBlock` differ: the resync guard at the start
dereferences the nil result without a check and crashes, while the
finality-computation step after building the payload surfaces an
explicit retryable error and does not proceed (state unchanged, no
newPayload, no canonicalize call). -/
theorem finalized_indeterminate_handling :
    (∀ (cfg : ChainConfig) (eng : EngineEnv) (rnd : Hash) (wds : List Withdrawal)
        (ts : Nat) (s : DriverState),
      s.curForkchoiceState.headBlockHash ≠ eng.currentBlock.hashVal →
      finalizedBlockHash eng eng.currentBlock.number = none →
      sealBlock cfg eng rnd wds ts s =
        { outcome := SealOutcome.panic, state := s, calls := [] }) ∧
    (∀ (cfg : ChainConfig) (eng : EngineEnv) (rnd : Hash) (wds : List Withdrawal)
        (ts : Nat) (s : DriverState) (resp : ForkChoiceResponse) (v : PayloadVersion)
        (pid : PayloadID) (env : ExecutionPayloadEnvelope),
      s.curForkchoiceState.headBlockHash = eng.currentBlock.hashVal →
      eng.txPoolSyncResult = Except.ok () →
      payloadVersion cfg (if ts ≤ s.lastBlockTime then s.lastBlockTime + 1 else ts) = some v →
      eng.fcuAttrsResult = Except.ok resp →
      resp ≠ STATUS_SYNCING →
      resp.payloadId = some pid →
      eng.getPayloadResult = Except.ok env →
      env.executionPayload.number % devEpochLength ≠ 0 →
      finalizedBlockHash eng env.executionPayload.number = none →
      (sealBlock cfg eng rnd wds ts s).outcome =
          SealOutcome.err "chain rewind interrupted calculation of finalized block hash" ∧
      (sealBlock cfg eng rnd wds ts s).state = s ∧
      (∀ p bh br rq, EngineCall.newPayloadCall p bh br rq ∉
        (sealBlock cfg eng rnd wds ts s).calls) ∧
      (∀ st, EngineCall.forkchoiceUpdatedCanon st ∉
        (sealBlock cfg eng rnd wds ts s).calls)) := by
  constructor
  · intro cfg eng rnd wds ts s hne hfin
    apply sealBlock_guard_panic
    unfold resyncGuard
    simp [hne, hfin]
  · intro cfg eng rnd wds ts s resp v pid env hhead hsync hver hfcu hns hpid hgp hmod hfin
    have hG := resyncGuard_eq_of_head eng s hhead
    rw [sealBlock_eq_body cfg eng rnd wds ts s s hG,
        sealBlockBody_finality_indeterminate cfg eng rnd wds s.feeRecipient
          (if ts ≤ s.lastBlockTime then s.lastBlockTime + 1 else ts) s resp v pid env
          hsync hver hfcu hns hpid hgp hmod hfin]
    refine ⟨rfl, rfl, ?_, ?_⟩ <;> intros <;> simp

/-- C2 witness: a concrete run that reaches the finality-computation
step with no block at the finalized height and gets the explicit
error. -/
theorem finalized_indeterminate_handling_w :
    (sealBlock cfgW engFinNone 0 [] 100 stW).outcome =
      SealOutcome.err "chain rewind interrupted calculation of finalized block hash" :=
  (finalized_indeterminate_handling.2 cfgW engFinNone 0 [] 100 stW respW
    PayloadVersion.V2 9 envelopeW rfl rfl rfl rfl (by decide) rfl rfl (by decide) rfl).1

/-- C3: if the first forkchoiceUpdated inside `sealBlock` returns
without error, with payload status VALID and no payload id, then
`sealBlock` returns success immediately: its call trace is just that
one forkchoiceUpdated (no getPayload, no newPayload, no second
forkchoiceUpdated) and `lastBlockTime` is unchanged. -/
theorem sealBlock_noop_success (cfg : ChainConfig) (eng : EngineEnv) (rnd : Hash)
    (wds : List Withdrawal) (ts : Nat) (s : DriverState)
    (resp : ForkChoiceResponse) (v : PayloadVersion)
    (hguard : s.curForkchoiceState.headBlockHash = eng.currentBlock.hashVal ∨
      (finalizedBlockHash eng eng.currentBlock.number).isSome)
    (hsync : eng.txPoolSyncResult = Except.ok ())
    (hver : payloadVersion cfg (if ts ≤ s.lastBlockTime then s.lastBlockTime + 1 else ts) = some v)
    (hfcu : eng.fcuAttrsResult = Except.ok resp)
    (hst : resp.payloadStatus.status = PayloadStatus.VALID)
    (hpid : resp.payloadId = none) :
    (sealBlock cfg eng rnd wds ts s).outcome = SealOutcome.ok ∧
    (sealBlock cfg eng rnd wds ts s).state.lastBlockTime = s.lastBlockTime ∧
    ∃ st a, (sealBlock cfg eng rnd wds ts s).calls =
      [EngineCall.forkchoiceUpdatedWithAttrs st a] := by
  obtain ⟨s1, hG, hlast, hfee⟩ := resyncGuard_exists eng s hguard
  rw [sealBlock_eq_body cfg eng rnd wds ts s s1 hG,
      sealBlockBody_noop cfg eng rnd wds s.feeRecipient
        (if ts ≤ s.lastBlockTime then s.lastBlockTime + 1 else ts) s1 resp v
        hsync hver hfcu hst hpid]
  exact ⟨rfl, hlast, s1.curForkchoiceState, _, rfl⟩

/-- C3 witness: a concrete no-op run. -/
theorem sealBlock_noop_success_w :
    (sealBlock cfgW engNoop 0 [] 100 stW).outcome = SealOutcome.ok ∧
    (sealBlock cfgW engNoop 0 [] 100 stW).state.lastBlockTime = stW.lastBlockTime := by
  have h := sealBlock_noop_success cfgW engNoop 0 [] 100 stW respNoop
    PayloadVersion.V2 (Or.inl rfl) rfl rfl rfl rfl rfl
  exact ⟨h.1, h.2.1⟩

/-- C4: the build timestamp used by `sealBlock` is `lastBlockTime + 1`
when the requested timestamp is at most `lastBlockTime` and the
requested timestamp otherwise — in particular it always exceeds
`lastBlockTime`, and it is exactly the timestamp carried by the
attributes of the first forkchoiceUpdated; and when the engine stamps
built payloads with the requested build timestamp, every successful
`sealBlock` either is the no-op path (a single engine call,
`lastBlockTime` untouched) or strictly increases `lastBlockTime` — so
the block timestamps of successive successful seals strictly increase
even for non-monotonic or repeated requested timestamps. -/
theorem sealBlock_timestamp_monotone (cfg : ChainConfig) (eng : EngineEnv)
    (rnd : Hash) (wds : List Withdrawal) (ts : Nat) (s : DriverState) :
    s.lastBlockTime < (if ts ≤ s.lastBlockTime then s.lastBlockTime + 1 else ts) ∧
    (∀ st a, (sealBlock cfg eng rnd wds ts s).calls.head? =
        some (EngineCall.forkchoiceUpdatedWithAttrs st a) →
      a.timestamp = (if ts ≤ s.lastBlockTime then s.lastBlockTime + 1 else ts)) ∧
    ((∀ env, eng.getPayloadResult = Except.ok env →
        env.executionPayload.timestamp =
          (if ts ≤ s.lastBlockTime then s.lastBlockTime + 1 else ts)) →
      (sealBlock cfg eng rnd wds ts s).outcome = SealOutcome.ok →
      (((sealBlock cfg eng rnd wds ts s).state.lastBlockTime = s.lastBlockTime ∧
          (sealBlock cfg eng rnd wds ts s).calls.length = 1) ∨
        s.lastBlockTime < (sealBlock cfg eng rnd wds ts s).state.lastBlockTime)) := by
  refine ⟨by split <;> omega, ?_, ?_⟩
  · intro st a h
    cases hG : resyncGuard eng s with
    | none =>
        rw [sealBlock_guard_panic cfg eng rnd wds ts s hG] at h
        simp at h
    | some s1 =>
        rw [sealBlock_eq_body cfg eng rnd wds ts s s1 hG] at h
        rcases sealBlockBody_shape cfg eng rnd wds s.feeRecipient
            (if ts ≤ s.lastBlockTime then s.lastBlockTime + 1 else ts) s1 with
          ⟨-, hc, -, -⟩ | ⟨env, fh, -, -, hc, -, -, -⟩
        · rcases hc with hc | hc
          · rw [hc] at h
            simp at h
          · rw [hc] at h
            simp only [Option.some.injEq, EngineCall.forkchoiceUpdatedWithAttrs.injEq] at h
            rw [← h.2]
            rfl
        · rw [hc] at h
          simp only [Option.some.injEq, EngineCall.forkchoiceUpdatedWithAttrs.injEq] at h
          rw [← h.2]
          rfl
  · intro H hok
    cases hG : resyncGuard eng s with
    | none =>
        rw [sealBlock_guard_panic cfg eng rnd wds ts s hG] at hok
        simp at hok
    | some s1 =>
        have hlast1 : s1.lastBlockTime = s.lastBlockTime := by
          rcases resyncGuard_spec eng s s1 hG with h | ⟨fh, h⟩ <;> simp [h]
        rw [sealBlock_eq_body cfg eng rnd wds ts s s1 hG] at hok ⊢
        rcases sealBlockBody_shape cfg eng rnd wds s.feeRecipient
            (if ts ≤ s.lastBlockTime then s.lastBlockTime + 1 else ts) s1 with
          ⟨hst, -, -, hone⟩ | ⟨env, fh, hgp, -, -, -, hts, -⟩
        · left
          constructor
          · rw [hst, hlast1]
          · rw [hone hok]
            rfl
        · right
          rw [hts hok, H env hgp]
          split <;> omega

/-- C4 witness: a concrete successful full seal starting from
`lastBlockTime = 100` with requested timestamp 100. -/
theorem sealBlock_timestamp_monotone_w :
    ((sealBlock cfgW engW 0 [] 100 stW).state.lastBlockTime = stW.lastBlockTime ∧
        (sealBlock cfgW engW 0 [] 100 stW).calls.length = 1) ∨
      stW.lastBlockTime < (sealBlock cfgW engW 0 [] 100 stW).state.lastBlockTime :=
  (sealBlock_timestamp_monotone cfgW engW 0 [] 100 stW).2.2
    (fun env h => by injection h with h2; subst h2; rfl) (by decide)

/-- C9: in every ForkchoiceState the driver holds, the safe hash equals
the head hash: in the one built at construction, in every one built by
`setCurrentState`, and `sealBlock` only ever keeps the input
forkchoice state or installs one built by `setCurrentState`. -/
theorem forkchoice_safe_eq_head :
    (∀ b : Header, (initialForkchoiceState b).safeBlockHash =
      (initialForkchoiceState b).headBlockHash) ∧
    (∀ h f : Hash, (setCurrentState h f).safeBlockHash =
      (setCurrentState h f).headBlockHash) ∧
    (∀ (cfg : ChainConfig) (eng : EngineEnv) (rnd : Hash) (wds : List Withdrawal)
        (ts : Nat) (s : DriverState),
      (sealBlock cfg eng rnd wds ts s).state.curForkchoiceState = s.curForkchoiceState ∨
      (sealBlock cfg eng rnd wds ts s).state.curForkchoiceState.safeBlockHash =
        (sealBlock cfg eng rnd wds ts s).state.curForkchoiceState.headBlockHash) := by
  refine ⟨fun b => rfl, fun h f => rfl, ?_⟩
  intro cfg eng rnd wds ts s
  cases hG : resyncGuard eng s with
  | none =>
      left
      rw [sealBlock_guard_panic cfg eng rnd wds ts s hG]
  | some s1 =>
      rw [sealBlock_eq_body cfg eng rnd wds ts s s1 hG]
      rcases sealBlockBody_shape cfg eng rnd wds s.feeRecipient
          (if ts ≤ s.lastBlockTime then s.lastBlockTime + 1 else ts) s1 with
        ⟨hst, -, -, -⟩ | ⟨env, fh, -, hcur, -, -, -, -⟩
      · rw [hst]
        rcases resyncGuard_spec eng s s1 hG with h | ⟨fh, h⟩
        · left
          rw [h]
        · right
          rw [h]
          rfl
      · right
        rw [hcur]
        rfl

/-- C10: if the first forkchoiceUpdated returns, without error, a
response that is not the SYNCING response, has no payload id and whose
status is not VALID, `sealBlock` dereferences the nil payload id and
crashes instead of returning an error; with status VALID the same
shape is the documented no-op success, which is the only way a missing
payload id avoids the crash. -/
theorem sealBlock_nil_payload_id_crash (cfg : ChainConfig) (eng : EngineEnv)
    (rnd : Hash) (wds : List Withdrawal) (ts : Nat) (s : DriverState)
    (resp : ForkChoiceResponse) (v : PayloadVersion)
    (hguard : s.curForkchoiceState.headBlockHash = eng.currentBlock.hashVal ∨
      (finalizedBlockHash eng eng.currentBlock.number).isSome)
    (hsync : eng.txPoolSyncResult = Except.ok ())
    (hver : payloadVersion cfg (if ts ≤ s.lastBlockTime then s.lastBlockTime + 1 else ts) = some v)
    (hfcu : eng.fcuAttrsResult = Except.ok resp)
    (hns : resp ≠ STATUS_SYNCING)
    (hpid : resp.payloadId = none) :
    (resp.payloadStatus.status ≠ PayloadStatus.VALID →
      (sealBlock cfg eng rnd wds ts s).outcome = SealOutcome.panic) ∧
    (resp.payloadStatus.status = PayloadStatus.VALID →
      (sealBlock cfg eng rnd wds ts s).outcome = SealOutcome.ok) := by
  obtain ⟨s1, hG, -, -⟩ := resyncGuard_exists eng s hguard
  constructor
  · intro hnv
    rw [sealBlock_eq_body cfg eng rnd wds ts s s1 hG,
        sealBlockBody_nil_pid cfg eng rnd wds s.feeRecipient
          (if ts ≤ s.lastBlockTime then s.lastBlockTime + 1 else ts) s1 resp v
          hsync hver hfcu hns hnv hpid]
  · intro hv
    rw [sealBlock_eq_body cfg eng rnd wds ts s s1 hG,
        sealBlockBody_noop cfg eng rnd wds s.feeRecipient
          (if ts ≤ s.lastBlockTime then s.lastBlockTime + 1 else ts) s1 resp v
          hsync hver hfcu hv hpid]

/-- C10 witness: a concrete INVALID response with no payload id makes
`sealBlock` crash. -/
theorem sealBlock_nil_payload_id_crash_w :
    (sealBlock cfgW engNilPid 0 [] 100 stW).outcome = SealOutcome.panic :=
  (sealBlock_nil_payload_id_crash cfgW engNilPid 0 [] 100 stW respNilPid
    PayloadVersion.V2 (Or.inl rfl) rfl rfl rfl (by decide) rfl).1 (by decide)

/-! ### Claim theorems: Fork and AdjustTime -/

/-- C8 (counterexample): with an empty pool and delta 0, `AdjustTime`
succeeds but the sealed block's timestamp is `lastBlockTime + 1` = 101,
not the current head's timestamp plus delta (100): the timestamp
normalization inside `sealBlock` overrides the requested value. -/
theorem adjustTime_zero_delta_counterexample :
    (AdjustTime cfgW engW 0 [] 0 stW).outcome = SealOutcome.ok ∧
    (AdjustTime cfgW engW 0 [] 0 stW).state.lastBlockTime = 101 ∧
    engW.currentBlock.time + 0 = 100 ∧
    (AdjustTime cfgW engW 0 [] 0 stW).state.lastBlockTime ≠
      engW.currentBlock.time + 0 := by
  exact ⟨by decide, by decide, rfl, by decide⟩

/-- C8 (amended): `Fork` and `AdjustTime` fail deterministically and
mutate nothing when the pool has at least one pending transaction; with
an empty pool, `Fork` succeeds exactly when the parent hash resolves to
a known block (given the engine's setCanonical succeeds), and
`AdjustTime` runs `sealBlock` with requested timestamp equal to the
current head's timestamp plus delta in whole seconds — the sealed
timestamp is that value except that `sealBlock` raises it to
`lastBlockTime + 1` when it is not greater than `lastBlockTime`. -/
theorem fork_adjustTime_behavior :
    (∀ (eng : EngineEnv) (ph : Hash), 1 ≤ eng.pendingCount →
      (Fork eng ph).result = Except.error "pending block dirty" ∧
      (Fork eng ph).calls = []) ∧
    (∀ (cfg : ChainConfig) (eng : EngineEnv) (rnd : Hash) (q : WithdrawalQueue)
        (adj : Int) (s : DriverState), 1 ≤ eng.pendingCount →
      (AdjustTime cfg eng rnd q adj s).outcome =
          SealOutcome.err "could not adjust time on non-empty block" ∧
      (AdjustTime cfg eng rnd q adj s).state = s ∧
      (AdjustTime cfg eng rnd q adj s).calls = []) ∧
    (∀ (eng : EngineEnv) (ph : Hash) (h : Hash), eng.pendingCount = 0 →
      eng.setCanonicalResult = Except.ok h →
      ((Fork eng ph).result = Except.ok () ↔ (eng.getBlockByHash ph).isSome)) ∧
    (∀ (cfg : ChainConfig) (eng : EngineEnv) (rnd : Hash) (q : WithdrawalQueue)
        (adj : Int) (s : DriverState), eng.pendingCount = 0 →
      AdjustTime cfg eng rnd q adj s =
        sealBlock cfg eng rnd (withdrawalQueuePop q 10).1
          ((eng.currentBlock.time + goUInt64OfInt64 (durationSeconds adj)) % 2 ^ 64) s) := by
  refine ⟨?_, ?_, ?_, ?_⟩
  · intro eng ph hp
    have : eng.pendingCount ≠ 0 := by omega
    unfold Fork
    simp [this]
  · intro cfg eng rnd q adj s hp
    have : eng.pendingCount ≠ 0 := by omega
    unfold AdjustTime
    simp [this]
  · intro eng ph h hp hset
    unfold Fork
    cases hb : eng.getBlockByHash ph with
    | none => simp [hp, hb]
    | some parent => simp [hp, hb, hset]
  · intro cfg eng rnd q adj s hp
    unfold AdjustTime
    simp [hp]

/-- C8 witness: with an empty pool and a cooperative engine, `Fork` on
the known head hash succeeds. -/
theorem fork_adjustTime_behavior_w :
    (Fork engW 77).result = Except.ok () ↔ (engW.getBlockByHash 77).isSome :=
  fork_adjustTime_behavior.2.2.1 engW 77 77 rfl rfl

end SimBeacon
